import Mathlib

/-!
Shallow embedding of the dynapins-server issuance pipeline.

Go strings are modelled as `List Char`; byte slices as `List Nat`
(each entry < 256); `time.Time` values as nanoseconds since the Unix
epoch (`Nat`); `time.Duration` values as nanoseconds (`Nat`).
-/

set_option maxRecDepth 100000

namespace Dynapins

/-- Go `string`, modelled as a list of characters. -/
abbrev GoStr := List Char

/-- Characters trimmed by Go's `strings.TrimSpace` (ASCII white space;
unicode space classes are irrelevant to the inputs considered here). -/
def isGoSpace (c : Char) : Bool :=
  c == ' ' || c == '\t' || c == '\n' || c == '\r' || c == '\x0b' || c == '\x0c'

/-- Go `strings.TrimSpace`: drop white space from both ends. -/
def trimSpace (s : GoStr) : GoStr :=
  ((s.dropWhile isGoSpace).reverse.dropWhile isGoSpace).reverse

/-- Go `strings.ToLower` (per-character lowering; ASCII suffices here). -/
def goToLower (s : GoStr) : GoStr :=
  s.map Char.toLower

/-- `strings.ToLower(strings.TrimSpace(s))`, the normalization applied by
`(*Validator).IsAllowed` to both the input domain and each whitelist entry. -/
def normalizeDomain (s : GoStr) : GoStr :=
  goToLower (trimSpace s)

/-! ### net.ParseIP, as used by `IsAllowed`

The Go code only ever tests `net.ParseIP(domain) != nil`, so the embedding
is the validity predicate of `net.ParseIP` (netip.ParseAddr with zones
rejected, which is what `net.ParseIP` does: any input containing `%` is
invalid for it). -/

def isDecDigit (c : Char) : Bool := '0' ≤ c && c ≤ '9'

def isHexDigitGo (c : Char) : Bool :=
  isDecDigit c || ('a' ≤ c && c ≤ 'f') || ('A' ≤ c && c ≤ 'F')

def decDigitVal (c : Char) : Nat := c.toNat - '0'.toNat

def hexDigitVal (c : Char) : Nat :=
  if isDecDigit c then decDigitVal c
  else if 'a' ≤ c && c ≤ 'f' then c.toNat - 'a'.toNat + 10
  else c.toNat - 'A'.toNat + 10

/-- Value of a list of decimal digits (accumulator form, as Go scans). -/
def decValue (ds : GoStr) : Nat :=
  ds.foldl (fun acc c => acc * 10 + decDigitVal c) 0

/-- Value of a list of hex digits. -/
def hexValue (ds : GoStr) : Nat :=
  ds.foldl (fun acc c => acc * 16 + hexDigitVal c) 0

/-- Consume one IPv4 field (netip.parseIPv4: at least one digit, value
at most 255, no leading zero in a multi-digit field); return the rest. -/
def v4Field (s : GoStr) : Option GoStr :=
  let ds := s.takeWhile isDecDigit
  let rest := s.dropWhile isDecDigit
  if ds.length = 0 then none
  else if decValue ds > 255 then none
  else if ds.length > 1 && ds.headD ' ' == '0' then none
  else some rest

/-- Expect a literal character, consuming it. -/
def expectChar (c : Char) : GoStr → Option GoStr
  | [] => none
  | x :: xs => if x == c then some xs else none

/-- Validity of `netip.parseIPv4`: exactly four dot-separated fields and
nothing else. -/
def goParseIPv4 (s : GoStr) : Bool :=
  (do
    let s1 ← v4Field s
    let s2 ← expectChar '.' s1
    let s3 ← v4Field s2
    let s4 ← expectChar '.' s3
    let s5 ← v4Field s4
    let s6 ← expectChar '.' s5
    let s7 ← v4Field s6
    if s7.isEmpty then some () else none).isSome

/-- Post-loop check of `netip.parseIPv6`: the remaining string must be
consumed; with fewer than 16 bytes filled an ellipsis (`::`) must have
been seen, with all 16 filled it must not have been. -/
def v6Final (sEmpty : Bool) (i : Nat) (ell : Bool) : Bool :=
  sEmpty && (if i < 16 then ell else !ell)

/-- Main loop of `netip.parseIPv6` (validity only): `i` counts the bytes
filled so far, `ell` records whether `::` has been seen. The `fuel`
argument only forces structural termination: every iteration of the Go
loop consumes at least one character of `s`, so any fuel of at least
`s.length + 1` (as supplied by `v6Loop`) makes the two agree. -/
def v6LoopF : Nat → GoStr → Nat → Bool → Bool
  | 0, _, _, _ => false
  | fuel + 1, s, i, ell =>
    if i < 16 then
      let ds := s.takeWhile isHexDigitGo
      if ds.length = 0 then false
      else if hexValue ds > 65535 then false
      else
        match s.dropWhile isHexDigitGo with
        | '.' :: _ =>
            -- embedded IPv4: must replace the final two 16-bit fields,
            -- and the whole rest of the string is parsed as IPv4
            (ell || i == 12) && decide (i + 4 ≤ 16) && goParseIPv4 s &&
              v6Final true (i + 4) ell
        | [] => v6Final true (i + 2) ell
        | [':'] => false
        | ':' :: ':' :: s2 =>
            if ell then false
            else if s2.isEmpty then v6Final true (i + 2) true
            else v6LoopF fuel s2 (i + 2) true
        | ':' :: c :: s2 => v6LoopF fuel (c :: s2) (i + 2) ell
        | _ :: _ => false
    else v6Final s.isEmpty i ell

def v6Loop (s : GoStr) (i : Nat) (ell : Bool) : Bool :=
  v6LoopF (s.length + 1) s i ell

/-- Validity of `netip.parseIPv6` (zones rejected, as `net.ParseIP` does). -/
def goParseIPv6 (s : GoStr) : Bool :=
  match s with
  | ':' :: ':' :: s2 => if s2.isEmpty then true else v6Loop s2 0 true
  | _ => v6Loop s 0 false

/-- Validity predicate of `net.ParseIP`: dispatch on the first of
`.`, `:`, `%` (netip.ParseAddr); `%` or no special character is invalid. -/
def goParseIP (s : GoStr) : Bool :=
  match s.find? (fun c => c == '.' || c == ':' || c == '%') with
  | some '.' => goParseIPv4 s
  | some ':' => goParseIPv6 s
  | _ => false

/-! ### The domain validator (`internal/domain/validator.go`) -/

/-- `domain.Validator`: whitelist plus the allow-IP-literals flag. -/
structure Validator where
  allowedDomains : List GoStr
  allowIPLiterals : Bool

/-- The IP-literal rejection test of `IsAllowed` (applied to the
normalized domain): a bare IP literal, or a `[`…`]`-bracketed one. -/
def ipLiteralRejected (domain : GoStr) : Bool :=
  goParseIP domain ||
    (['['].isPrefixOf domain && [']'].isSuffixOf domain &&
      goParseIP (domain.drop 1).dropLast)

/-- The wildcard branch of `IsAllowed` for a whitelist entry `*.suffix`
(`suffix` and `domain` already normalized): `domain` ends with `suffix`,
is longer than it, has `'.'` just before it, and the part before that
dot contains no further dot. -/
def wildcardMatch (suffix domain : GoStr) : Bool :=
  suffix.isSuffixOf domain &&
    decide (suffix.length < domain.length) &&
    (domain[domain.length - suffix.length - 1]? == some '.') &&
    !((domain.take (domain.length - suffix.length - 1)).contains '.')

/-- `(*Validator).IsAllowed`: normalize, reject IP literals unless
allowed, then first-match-wins over the whitelist (exact match or
single-level wildcard). -/
def IsAllowed (v : Validator) (domain0 : GoStr) : Bool :=
  let domain := normalizeDomain domain0
  if !v.allowIPLiterals && ipLiteralRejected domain then false
  else
    v.allowedDomains.any (fun a0 =>
      let allowed := normalizeDomain a0
      domain == allowed ||
        (['*', '.'].isPrefixOf allowed && wildcardMatch (allowed.drop 2) domain))

/-! ### SHA-256 and base64 (Go `crypto/sha256`, `encoding/base64`)

Bytes are `Nat` values below 256; 32-bit words are `Nat` values reduced
modulo `2 ^ 32` explicitly. -/

/-- Reduce to a 32-bit word. -/
def w32 (n : Nat) : Nat := n % 4294967296

/-- Right rotation of a 32-bit word. -/
def rotr (n x : Nat) : Nat := w32 ((x >>> n) ||| (x <<< (32 - n)))

def shaCh (x y z : Nat) : Nat := (x &&& y) ^^^ ((x ^^^ 4294967295) &&& z)

def shaMaj (x y z : Nat) : Nat := (x &&& y) ^^^ (x &&& z) ^^^ (y &&& z)

def bigSigma0 (x : Nat) : Nat := rotr 2 x ^^^ rotr 13 x ^^^ rotr 22 x

def bigSigma1 (x : Nat) : Nat := rotr 6 x ^^^ rotr 11 x ^^^ rotr 25 x

def smallSigma0 (x : Nat) : Nat := rotr 7 x ^^^ rotr 18 x ^^^ (x >>> 3)

def smallSigma1 (x : Nat) : Nat := rotr 17 x ^^^ rotr 19 x ^^^ (x >>> 10)

/-- The 64 SHA-256 round constants (decimal). -/
def sha256K : List Nat :=
  [1116352408, 1899447441, 3049323471, 3921009573,
   961987163, 1508970993, 2453635748, 2870763221,
   3624381080, 310598401, 607225278, 1426881987,
   1925078388, 2162078206, 2614888103, 3248222580,
   3835390401, 4022224774, 264347078, 604807628,
   770255983, 1249150122, 1555081692, 1996064986,
   2554220882, 2821834349, 2952996808, 3210313671,
   3336571891, 3584528711, 113926993, 338241895,
   666307205, 773529912, 1294757372, 1396182291,
   1695183700, 1986661051, 2177026350, 2456956037,
   2730485921, 2820302411, 3259730800, 3345764771,
   3516065817, 3600352804, 4094571909, 275423344,
   430227734, 506948616, 659060556, 883997877,
   958139571, 1322822218, 1537002063, 1747873779,
   1955562222, 2024104815, 2227730452, 2361852424,
   2428436474, 2756734187, 3204031479, 3329325298]

/-- The SHA-256 initial hash value (decimal). -/
def sha256H0 : List Nat :=
  [1779033703, 3144134277, 1013904242, 2773480762,
   1359893119, 2600822924, 528734635, 1541459225]

/-- Merkle–Damgård padding: `0x80`, zeros to 56 mod 64, then the bit
length as 8 big-endian bytes. -/
def sha256pad (msg : List Nat) : List Nat :=
  let L := msg.length
  let zeros := (120 - ((L + 1) % 64)) % 64
  msg ++ 0x80 :: List.replicate zeros 0 ++
    (List.range 8).map (fun i => ((8 * L) >>> (8 * (7 - i))) % 256)

/-- Split into 64-byte blocks. The `fuel` argument only forces
structural termination: each step drops 64 bytes, so `l.length` (as
supplied by `toBlocks`) is always enough. -/
def toBlocksF : Nat → List Nat → List (List Nat)
  | 0, _ => []
  | _, [] => []
  | fuel + 1, b :: rest =>
      (b :: rest).take 64 :: toBlocksF fuel ((b :: rest).drop 64)

def toBlocks (l : List Nat) : List (List Nat) := toBlocksF l.length l

/-- Big-endian 32-bit words from bytes. -/
def bytesToWords : List Nat → List Nat
  | b0 :: b1 :: b2 :: b3 :: rest =>
      (b0 * 16777216 + b1 * 65536 + b2 * 256 + b3) :: bytesToWords rest
  | _ => []

/-- Big-endian bytes of a 32-bit word. -/
def wordBytes (w : Nat) : List Nat :=
  [(w >>> 24) % 256, (w >>> 16) % 256, (w >>> 8) % 256, w % 256]

/-- Extend the 16-word message schedule by `n` further words. -/
def extendSchedule : List Nat → Nat → List Nat
  | ws, 0 => ws
  | ws, n + 1 =>
    let t := ws.length
    let w := w32 (smallSigma1 (ws.getD (t - 2) 0) + ws.getD (t - 7) 0 +
      smallSigma0 (ws.getD (t - 15) 0) + ws.getD (t - 16) 0)
    extendSchedule (ws ++ [w]) n

/-- One SHA-256 round on the 8-word working state. -/
def sha256round (st : List Nat) (wk : Nat × Nat) : List Nat :=
  let a := st.getD 0 0
  let b := st.getD 1 0
  let c := st.getD 2 0
  let d := st.getD 3 0
  let e := st.getD 4 0
  let f := st.getD 5 0
  let g := st.getD 6 0
  let h := st.getD 7 0
  let t1 := w32 (h + bigSigma1 e + shaCh e f g + wk.2 + wk.1)
  let t2 := w32 (bigSigma0 a + shaMaj a b c)
  [w32 (t1 + t2), a, b, c, w32 (d + t1), e, f, g]

/-- Compression of one 64-byte block into the running hash. -/
def sha256compress (h : List Nat) (block : List Nat) : List Nat :=
  let ws := extendSchedule (bytesToWords block) 48
  let st := (ws.zip sha256K).foldl sha256round h
  (h.zip st).map (fun p => w32 (p.1 + p.2))

/-- SHA-256 digest (32 bytes) of a byte sequence. -/
def sha256 (msg : List Nat) : List Nat :=
  (((toBlocks (sha256pad msg)).foldl sha256compress sha256H0).map wordBytes).flatten

/-- The standard base64 alphabet (RFC 4648, as `base64.StdEncoding`). -/
def base64Alphabet : List Char :=
  "ABCDEFGHIJKLMNOPQRSTUVWXYZabcdefghijklmnopqrstuvwxyz0123456789+/".toList

/-- `base64.StdEncoding.EncodeToString` over bytes. -/
def base64Encode : List Nat → List Char
  | [] => []
  | [b0] =>
      [base64Alphabet.getD (b0 >>> 2) 'A',
       base64Alphabet.getD ((b0 <<< 4) % 64) 'A', '=', '=']
  | [b0, b1] =>
      [base64Alphabet.getD (b0 >>> 2) 'A',
       base64Alphabet.getD (((b0 <<< 4) ||| (b1 >>> 4)) % 64) 'A',
       base64Alphabet.getD ((b1 <<< 2) % 64) 'A', '=']
  | b0 :: b1 :: b2 :: rest =>
      base64Alphabet.getD (b0 >>> 2) 'A' ::
        base64Alphabet.getD (((b0 <<< 4) ||| (b1 >>> 4)) % 64) 'A' ::
        base64Alphabet.getD (((b1 <<< 2) ||| (b2 >>> 6)) % 64) 'A' ::
        base64Alphabet.getD (b2 % 64) 'A' :: base64Encode rest

/-- Certificate, as the pipeline observes it: the raw DER of the whole
certificate and the raw DER of its SubjectPublicKeyInfo field. -/
structure Cert where
  raw : List Nat
  rawSubjectPublicKeyInfo : List Nat
deriving DecidableEq

/-- `crypto.GenerateSPKIHash`: base64(SHA-256(SPKI DER)). -/
def GenerateSPKIHash (cert : Cert) : GoStr :=
  base64Encode (sha256 cert.rawSubjectPublicKeyInfo)

/-- `crypto.GenerateSPKIHashes`: the append loop over the chain. -/
def GenerateSPKIHashes (certs : List Cert) : List GoStr :=
  certs.foldl (fun hashes cert => hashes ++ [GenerateSPKIHash cert]) []

/-! ### The certificate retriever (`internal/cert/retriever.go`)

The TLS dial is the one external effect; its outcome at a given call is
an explicit argument `dial : Option (List Cert)` (`none` is a
dial/handshake failure, `some certs` a completed handshake returning the
peer chain, leaf first). `time.Now()` is the explicit argument `now`
(nanoseconds). The shared cache is threaded as explicit state. -/

/-- `cert.cacheEntry`. -/
structure CacheEntry where
  certs : List Cert
  expiresAt : Nat
deriving DecidableEq

/-- The mutable state of `cert.Retriever`: the cache map, modelled as an
association list with at most one binding per key. -/
structure RetrieverState where
  cache : List (GoStr × CacheEntry)
deriving DecidableEq

/-- Map insert/replace (`r.cache[domain] = entry`). -/
def mapInsert (m : List (GoStr × CacheEntry)) (k : GoStr) (v : CacheEntry) :
    List (GoStr × CacheEntry) :=
  (k, v) :: m.filter (fun p => !(p.1 == k))

/-- `(*Retriever).fetchCertificates`: surface a dial/handshake failure,
reject an empty peer chain, otherwise return the chain. -/
def fetchCertificates (domain : GoStr) (dial : Option (List Cert)) :
    Except GoStr (List Cert) :=
  match dial with
  | none => .error ("failed to connect to ".toList ++ domain)
  | some certs =>
      if certs.length = 0 then
        .error ("no certificates found for domain: ".toList ++ domain)
      else .ok certs

/-- Result of one `GetCertificates` call: the returned value, the cache
state afterwards, and whether a network fetch was attempted. -/
structure GetResult where
  result : Except GoStr (List Cert)
  state : RetrieverState
  fetched : Bool

/-- The cache-consultation step of `GetCertificates`: when `cacheTTL > 0`,
a lookup hit with `now < expiresAt` yields the cached chain. -/
def cacheHit (cacheTTL : Nat) (st : RetrieverState) (domain : GoStr)
    (now : Nat) : Option (List Cert) :=
  if cacheTTL > 0 then
    match st.cache.lookup domain with
    | some entry => if now < entry.expiresAt then some entry.certs else none
    | none => none
  else none

/-- `(*Retriever).GetCertificates`: consult the cache when `cacheTTL > 0`
(a hit must satisfy `now < expiresAt`), otherwise fetch; store a
successful fetch under the requested key with expiry `now + cacheTTL`
when `cacheTTL > 0`; never store failures. -/
def GetCertificates (cacheTTL : Nat) (st : RetrieverState) (domain : GoStr)
    (now : Nat) (dial : Option (List Cert)) : GetResult :=
  match cacheHit cacheTTL st domain now with
  | some certs => ⟨.ok certs, st, false⟩
  | none =>
    match fetchCertificates domain dial with
    | .error e => ⟨.error e, st, true⟩
    | .ok certs =>
      if cacheTTL > 0 then
        ⟨.ok certs, ⟨mapInsert st.cache domain ⟨certs, now + cacheTTL⟩⟩, true⟩
      else ⟨.ok certs, st, true⟩

/-- The initial state made by `NewRetriever`: an empty cache. -/
def initialRetrieverState : RetrieverState := ⟨[]⟩

/-- Cache well-formedness: every cached chain is non-empty (established
by `NewRetriever` and preserved by every call, since only successful
fetches — which are non-empty — are stored). -/
def cacheWF (st : RetrieverState) : Prop :=
  ∀ p ∈ st.cache, p.2.certs ≠ []

/-! ### The signer (`internal/crypto/signer.go`)

`CreateJWS` samples the wall clock itself (`time.Now().UTC()`), modelled
by the explicit argument `nowNs` (nanoseconds since the epoch).
Durations are nonnegative nanosecond counts; `now.Unix()` is `nowNs`
divided by `10^9`, and Go's `int(ttl.Seconds())` (float64 truncation,
exact for whole-second durations below `2^53` ns) is modelled as the
same floor division. The ECDSA P-256 signature is scheme-inherently
randomized, so it is modelled as an uninterpreted signing function
applied to the key, the protected header, the payload, and a randomness
value; the claims under study quantify over it or ignore it. -/

/-- The JWS protected header: `alg` (always ES256) and `kid`. -/
structure JWSHeader where
  alg : GoStr
  kid : GoStr
deriving DecidableEq

/-- The claim set `CreateJWS` embeds in the token payload. -/
structure JWSPayload where
  domain : GoStr
  pins : List GoStr
  iat : Nat
  exp : Nat
  ttl_seconds : Nat
deriving DecidableEq

/-- The signed token: protected header, payload, signature. -/
structure JWSEnvelope where
  header : JWSHeader
  payload : JWSPayload
  signature : List Nat
deriving DecidableEq

/-- An ECDSA signing primitive: key, protected header, payload,
scheme-inherent randomness. -/
abbrev SigFun := Nat → JWSHeader → JWSPayload → Nat → List Nat

/-- Nanoseconds per second. -/
def nsPerSec : Nat := 1000000000

/-- `crypto.CreateJWS`: build the claim set (`domain`, `pins`,
`iat = now.Unix()`, `exp = now.Add(ttl).Unix()`,
`ttl_seconds = int(ttl.Seconds())`), the ES256 protected header with the
key id, and sign. The claim-setting and signing steps never fail for
these claim values, so the embedding is total. -/
def CreateJWS (sig : SigFun) (key : Nat) (keyID : GoStr) (domain : GoStr)
    (pins : List GoStr) (ttlNs : Nat) (nowNs : Nat) (rand : Nat) : JWSEnvelope :=
  let payload : JWSPayload :=
    { domain := domain
      pins := pins
      iat := nowNs / nsPerSec
      exp := (nowNs + ttlNs) / nsPerSec
      ttl_seconds := ttlNs / nsPerSec }
  let header : JWSHeader := { alg := "ES256".toList, kid := keyID }
  { header := header, payload := payload,
    signature := sig key header payload rand }

/-- A trivial signing function, used for concrete instances where the
signature value is irrelevant. -/
def sigZero : SigFun := fun _ _ _ _ => []

/-! ### The HTTP handler (`internal/server/handlers.go`) -/

/-- The parts of an HTTP request `handleGetPins` reads. A missing query
parameter is the empty string, as with `url.Values.Get`. -/
structure HRequest where
  method : GoStr
  domainParam : GoStr
  includeBackupParam : GoStr

/-- A response body: the JSON error object or the JWS success object. -/
inductive ResponseBody
  | errorBody (message : GoStr) (code : Nat)
  | jwsBody (env : JWSEnvelope)
deriving DecidableEq

/-- Outcome of one `handleGetPins` call: HTTP status, body, retriever
cache state afterwards, and which pipeline stages ran. -/
structure HandlerResult where
  status : Nat
  body : ResponseBody
  state : RetrieverState
  whitelistChecked : Bool
  fetchAttempted : Bool
  signAttempted : Bool

/-- The chain-truncation step of `handleGetPins`: leaf plus first
intermediate when backup pins are requested and available, else the
leaf alone, else (empty chain) nothing. -/
def selectCertsForPinning (includeBackup : Bool) (certs : List Cert) : List Cert :=
  if includeBackup && certs.length > 1 then certs.take 2
  else if certs.length > 0 then certs.take 1
  else []

/-- `(*Server).handleGetPins`: method check, domain-parameter checks,
whitelist check, certificate retrieval, pin generation, JWS creation. -/
def handleGetPins (sig : SigFun) (key : Nat) (keyID : GoStr) (v : Validator)
    (cacheTTL : Nat) (sigLifetimeNs : Nat) (st : RetrieverState)
    (req : HRequest) (now : Nat) (dial : Option (List Cert)) (rand : Nat) :
    HandlerResult :=
  if req.method ≠ "GET".toList then
    ⟨405, .errorBody "Method not allowed".toList 405, st, false, false, false⟩
  else if req.domainParam = [] then
    ⟨400, .errorBody "Missing required query parameter: domain".toList 400,
      st, false, false, false⟩
  else if req.domainParam.length = 0 || req.domainParam.length > 253 then
    ⟨400, .errorBody "Invalid domain parameter".toList 400, st, false, false, false⟩
  else
    let includeBackup := req.includeBackupParam == "true".toList
    if !(IsAllowed v req.domainParam) then
      ⟨403, .errorBody "Domain not found in whitelist".toList 403,
        st, true, false, false⟩
    else
      match GetCertificates cacheTTL st req.domainParam now dial with
      | ⟨.error _, st1, _⟩ =>
          ⟨422, .errorBody "Failed to retrieve certificate for domain".toList 422,
            st1, true, true, false⟩
      | ⟨.ok certs, st1, _⟩ =>
          let pins := GenerateSPKIHashes (selectCertsForPinning includeBackup certs)
          ⟨200, .jwsBody (CreateJWS sig key keyID req.domainParam pins sigLifetimeNs now rand),
            st1, true, true, true⟩

/-- One inbound request together with the environment it observes. -/
structure HandlerCall where
  req : HRequest
  now : Nat
  dial : Option (List Cert)
  rand : Nat

/-- A sequence of `handleGetPins` calls threading the retriever state. -/
def runHandler (sig : SigFun) (key : Nat) (keyID : GoStr) (v : Validator)
    (cacheTTL : Nat) (sigLifetimeNs : Nat) :
    List HandlerCall → RetrieverState → RetrieverState
  | [], st => st
  | c :: cs, st =>
      runHandler sig key keyID v cacheTTL sigLifetimeNs cs
        (handleGetPins sig key keyID v cacheTTL sigLifetimeNs st
          c.req c.now c.dial c.rand).state

/-! ### Scratch checks of the embedding on concrete inputs -/

example : IsAllowed ⟨["*.example.com".toList], false⟩ "api.example.com".toList = true := by decide
example : IsAllowed ⟨["*.example.com".toList], false⟩ ".example.com".toList = true := by decide
example : goParseIP "127.0.0.1".toList = true := by decide
example : goParseIP "2001:db8::1".toList = true := by decide
example : goParseIP "example.com".toList = false := by decide
example : goParseIP "2001:db8::1::2".toList = false := by decide
example : goParseIP "::1".toList = true := by decide
example : goParseIP "::".toList = true := by decide
example : goParseIP "1:2:3:4:5:6:7:8".toList = true := by decide
example : goParseIP "1:2:3:4:5:6:7:8:9".toList = false := by decide
example : goParseIP "1:2:3:4:5:6:7".toList = false := by decide
example : goParseIP "::ffff:127.0.0.1".toList = true := by decide
example : goParseIP "1.2.3.4.5".toList = false := by decide
example : goParseIP "127.0.0.01".toList = false := by decide
example : goParseIP "256.0.0.1".toList = false := by decide
example : IsAllowed ⟨["127.0.0.1".toList], false⟩ "127.0.0.1".toList = false := by decide
example : IsAllowed ⟨["127.0.0.1".toList], true⟩ "127.0.0.1".toList = true := by decide
example : IsAllowed ⟨["[2001:db8::1]".toList], false⟩ "[2001:db8::1]".toList = false := by decide

example : sha256 [] =
    [227, 176, 196, 66, 152, 252, 28, 20, 154, 251, 244, 200,
     153, 111, 185, 36, 39, 174, 65, 228, 100, 155, 147, 76,
     164, 149, 153, 27, 120, 82, 184, 85] := by decide

example : base64Encode (sha256 []) =
    "47DEQpj8HBSa+/TImW+5JCeuQeRkm5NMpJWZG3hSuFU=".toList := by decide

/-- The append loop of `GenerateSPKIHashes` is a map. -/
theorem GenerateSPKIHashes_eq_map (certs : List Cert) :
    GenerateSPKIHashes certs = certs.map GenerateSPKIHash := by
  have key : ∀ (l : List Cert) (acc : List GoStr),
      l.foldl (fun hashes cert => hashes ++ [GenerateSPKIHash cert]) acc =
        acc ++ l.map GenerateSPKIHash := by
    intro l
    induction l with
    | nil => simp [List.foldl]
    | cons c cs ih => intro acc; simp [List.foldl, ih]
  simpa using key certs []

/-! ### Claim C1: wildcard matching -/

/-- Helper for C1: decomposing a successful wildcard match. -/
theorem wildcardMatch_eq_true_iff (suffix domain : GoStr) :
    wildcardMatch suffix domain = true ↔
      ∃ pre : GoStr, domain = pre ++ '.' :: suffix ∧ pre.contains '.' = false := by
  simp only [wildcardMatch, Bool.and_eq_true, decide_eq_true_eq, beq_iff_eq,
    Bool.not_eq_true']
  constructor
  · rintro ⟨⟨⟨hsuf, hlen⟩, hdot⟩, hnd⟩
    obtain ⟨t, ht⟩ := List.isSuffixOf_iff_suffix.mp hsuf
    have hL : domain.length = t.length + suffix.length := by
      rw [← ht]; simp
    have hidx : domain.length - suffix.length - 1 = t.length - 1 := by omega
    have htpos : 0 < t.length := by omega
    rw [hidx] at hdot hnd
    rw [← ht, List.getElem?_append_left (by omega)] at hdot
    have hlast : '.' ∈ t.getLast? := by
      rw [List.getLast?_eq_getElem?]; exact hdot
    have hsplit : t.dropLast ++ ['.'] = t := List.dropLast_append_getLast? _ hlast
    have hdom : domain = t.dropLast ++ '.' :: suffix := by
      rw [← ht, ← hsplit]; simp
    refine ⟨t.dropLast, hdom, ?_⟩
    have htake : domain.take (t.length - 1) = t.dropLast := by
      rw [hdom]
      exact List.take_left' (by simp [List.length_dropLast])
    rwa [htake] at hnd
  · rintro ⟨pre, rfl, hnd⟩
    have hn : (pre ++ '.' :: suffix).length - suffix.length - 1 = pre.length := by
      simp; omega
    refine ⟨⟨⟨?_, ?_⟩, ?_⟩, ?_⟩
    · exact List.isSuffixOf_iff_suffix.mpr ⟨pre ++ ['.'], by simp⟩
    · simp; omega
    · rw [hn, List.getElem?_append_right (Nat.le_refl _)]; simp
    · rwa [hn, List.take_left' rfl]

/-- Claim C1, counterexample: the code authorizes `".example.com"` under
whitelist `["*.example.com"]`, although the remaining prefix before the
boundary dot is empty — the claim's "non-empty prefix" requirement fails. -/
theorem C1_counterexample :
    IsAllowed ⟨["*.example.com".toList], false⟩ ".example.com".toList = true ∧
      ¬ ∃ pre : GoStr, pre ≠ [] ∧
          normalizeDomain ".example.com".toList =
            pre ++ '.' :: "example.com".toList ∧
          pre.contains '.' = false := by
  refine ⟨by decide, ?_⟩
  rintro ⟨pre, hne, heq, -⟩
  have hlen := congrArg List.length heq
  simp only [List.length_append, List.length_cons] at hlen
  have : pre.length = 0 := by
    have h1 : (normalizeDomain ".example.com".toList).length = 12 := by decide
    have h2 : ("example.com".toList).length = 11 := by decide
    omega
  exact hne (List.length_eq_zero.mp this)

/-- Claim C1 (amended): a wildcard pattern `*.suffix` authorizes a
domain iff the normalized domain is `pre ++ "." ++ suffix` for a
(possibly empty) `pre` containing no dot; in particular, under whitelist
`["*.example.com"]`, `IsAllowed` is true on `"api.example.com"` and
false on `"example.com"` and `"a.b.example.com"`. -/
theorem C1_wildcard_matching :
    (∀ suffix domain : GoStr,
      wildcardMatch suffix domain = true ↔
        ∃ pre : GoStr, domain = pre ++ '.' :: suffix ∧ pre.contains '.' = false)
    ∧ IsAllowed ⟨["*.example.com".toList], false⟩ "api.example.com".toList = true
    ∧ IsAllowed ⟨["*.example.com".toList], false⟩ "example.com".toList = false
    ∧ IsAllowed ⟨["*.example.com".toList], false⟩ "a.b.example.com".toList = false :=
  ⟨wildcardMatch_eq_true_iff, by decide, by decide, by decide⟩

/-! ### Claims C4 and C5: the certificate cache and the error contract -/

/-- Looking up the key just inserted yields the new entry. -/
theorem lookup_mapInsert_self (m : List (GoStr × CacheEntry)) (k : GoStr)
    (v : CacheEntry) : (mapInsert m k v).lookup k = some v := by
  simp [mapInsert, List.lookup]

/-- A successful association-list lookup comes from a member. -/
theorem lookup_mem {m : List (GoStr × CacheEntry)} {k : GoStr} {v : CacheEntry}
    (h : m.lookup k = some v) : ∃ k', (k', v) ∈ m := by
  induction m with
  | nil => simp [List.lookup] at h
  | cons p rest ih =>
    rcases p with ⟨k0, v0⟩
    by_cases hk : (k == k0) = true
    · simp [List.lookup, hk] at h
      exact ⟨k0, by simp [h]⟩
    · simp [List.lookup, hk] at h
      obtain ⟨k', hk'⟩ := ih h
      exact ⟨k', by simp [hk']⟩

/-- A chain served from a well-formed cache is non-empty. -/
theorem cacheHit_nonempty {ttl : Nat} {st : RetrieverState} {d : GoStr}
    {now : Nat} {cs : List Cert} (hwf : cacheWF st)
    (hh : cacheHit ttl st d now = some cs) : cs ≠ [] := by
  unfold cacheHit at hh
  by_cases httl : ttl > 0
  · rw [if_pos httl] at hh
    rcases hlook : st.cache.lookup d with _ | entry <;> rw [hlook] at hh <;>
      dsimp only at hh
    · cases hh
    · by_cases hlt : now < entry.expiresAt
      · rw [if_pos hlt] at hh
        injection hh with hv
        obtain ⟨k', hk'⟩ := lookup_mem hlook
        exact hv ▸ hwf (k', entry) hk'
      · rw [if_neg hlt] at hh; cases hh
  · rw [if_neg httl] at hh; cases hh

/-- Shape of a call that actually fetched and succeeded (with caching
on): the chain came from the dial and was stored under the requested
key with expiry `now + cacheTTL`. -/
theorem GetCertificates_fetched_ok (ttl : Nat) (st : RetrieverState)
    (d : GoStr) (now : Nat) (dial : Option (List Cert)) (certs : List Cert)
    (httl : 0 < ttl)
    (hfetch : (GetCertificates ttl st d now dial).fetched = true)
    (hok : (GetCertificates ttl st d now dial).result = .ok certs) :
    GetCertificates ttl st d now dial =
      ⟨.ok certs, ⟨mapInsert st.cache d ⟨certs, now + ttl⟩⟩, true⟩ := by
  rcases hh : cacheHit ttl st d now with _ | cs
  · rcases dial with _ | cs0
    · simp [GetCertificates, hh, fetchCertificates] at hok
    · by_cases hz : cs0.length = 0
      · simp [GetCertificates, hh, fetchCertificates, hz] at hok
      · simp [GetCertificates, hh, fetchCertificates, hz, httl] at hok ⊢
        simp [hok]
  · simp [GetCertificates, hh] at hfetch

/-- Claim C4: with `cacheTTL > 0`, after a fetched success for a domain,
a second call for the same domain strictly before `now + TTL` returns
the identical chain from the cache, fetches nothing, and leaves the
state unchanged; from the expiry time on, a subsequent call performs a
fresh fetch. -/
theorem C4_cache_roundtrip (ttl : Nat) (st : RetrieverState) (d : GoStr)
    (now : Nat) (dial : Option (List Cert)) (certs : List Cert)
    (now2 : Nat) (dial2 : Option (List Cert))
    (httl : 0 < ttl)
    (hfetch : (GetCertificates ttl st d now dial).fetched = true)
    (hok : (GetCertificates ttl st d now dial).result = .ok certs) :
    (now2 < now + ttl →
      GetCertificates ttl (GetCertificates ttl st d now dial).state d now2 dial2 =
        ⟨.ok certs, (GetCertificates ttl st d now dial).state, false⟩)
    ∧ (now + ttl ≤ now2 →
      (GetCertificates ttl (GetCertificates ttl st d now dial).state d now2 dial2).fetched
        = true) := by
  have h1 := GetCertificates_fetched_ok ttl st d now dial certs httl hfetch hok
  rw [h1]
  constructor
  · intro hlt
    have hhit : cacheHit ttl ⟨mapInsert st.cache d ⟨certs, now + ttl⟩⟩ d now2 =
        some certs := by
      simp [cacheHit, httl, lookup_mapInsert_self, hlt]
    simp [GetCertificates, hhit]
  · intro hge
    have hhit : cacheHit ttl ⟨mapInsert st.cache d ⟨certs, now + ttl⟩⟩ d now2 =
        none := by
      simp [cacheHit, httl, lookup_mapInsert_self]
      omega
    rcases dial2 with _ | cs2
    · simp [GetCertificates, hhit, fetchCertificates]
    · by_cases hz : cs2.length = 0 <;>
        simp [GetCertificates, hhit, fetchCertificates, hz] <;>
        (try split) <;> rfl

/-- Witness for C4 at a concrete run: fetch `[certEx]` at time 0 with
TTL 100, then hit the cache at time 50. -/
theorem C4_witness :
    GetCertificates 100
        (GetCertificates 100 initialRetrieverState "example.com".toList 0
          (some [⟨[48], [49]⟩])).state "example.com".toList 50 none =
      ⟨.ok [⟨[48], [49]⟩],
        (GetCertificates 100 initialRetrieverState "example.com".toList 0
          (some [⟨[48], [49]⟩])).state, false⟩ :=
  (C4_cache_roundtrip 100 initialRetrieverState "example.com".toList 0
    (some [⟨[48], [49]⟩]) [⟨[48], [49]⟩] 50 none (by decide) rfl rfl).1 (by decide)

/-- Claim C5: a call errors exactly when it actually went to the network
and the dial failed or returned an empty chain; a successful result is
never empty (given the cache invariant, which holds initially and is
preserved); failures leave the state untouched. -/
theorem C5_error_contract (ttl : Nat) (st : RetrieverState) (d : GoStr)
    (now : Nat) (dial : Option (List Cert)) (hwf : cacheWF st) :
    ((∃ e, (GetCertificates ttl st d now dial).result = .error e) ↔
      ((GetCertificates ttl st d now dial).fetched = true ∧
        (dial = none ∨ dial = some [])))
    ∧ (∀ certs, (GetCertificates ttl st d now dial).result = .ok certs → certs ≠ [])
    ∧ ((∃ e, (GetCertificates ttl st d now dial).result = .error e) →
        (GetCertificates ttl st d now dial).state = st)
    ∧ cacheWF (GetCertificates ttl st d now dial).state
    ∧ cacheWF initialRetrieverState := by
  have hinit : cacheWF initialRetrieverState := by
    intro p hp; cases hp
  rcases hh : cacheHit ttl st d now with _ | cs
  · rcases dial with _ | cs0
    · simp only [GetCertificates, hh, fetchCertificates]
      refine ⟨by simp, by simp, by simp, hwf, hinit⟩
    · by_cases hz : cs0.length = 0
      · have hnil : cs0 = [] := List.length_eq_zero.mp hz
        subst hnil
        simp only [GetCertificates, hh, fetchCertificates]
        refine ⟨by simp, by simp, by simp, hwf, hinit⟩
      · have hne : cs0 ≠ [] := by
          intro hcon; exact hz (by simp [hcon])
        by_cases httl : 0 < ttl
        · simp only [GetCertificates, hh, fetchCertificates, if_neg hz, if_pos httl]
          refine ⟨by simp [hne], ?_, by simp, ?_, hinit⟩
          · intro certs hcerts
            cases hcerts
            exact hne
          · intro p hp
            simp only [mapInsert, List.mem_cons, List.mem_filter] at hp
            rcases hp with rfl | ⟨hp, -⟩
            · exact hne
            · exact hwf p hp
        · simp only [GetCertificates, hh, fetchCertificates, if_neg hz,
            if_neg httl]
          refine ⟨by simp [hne], ?_, by simp, hwf, hinit⟩
          intro certs hcerts
          cases hcerts
          exact hne
  · have hcs : cs ≠ [] := cacheHit_nonempty hwf hh
    simp only [GetCertificates, hh]
    refine ⟨by simp, ?_, by simp, hwf, hinit⟩
    intro certs hcerts
    injection hcerts with hv
    exact hv ▸ hcs

/-- Witness for C5 at a concrete run: a failed dial on the empty cache
errors out and leaves the state untouched. -/
theorem C5_witness :
    (GetCertificates 0 initialRetrieverState "example.com".toList 0 none).state =
      initialRetrieverState :=
  (C5_error_contract 0 initialRetrieverState "example.com".toList 0 none
    (by intro p hp; cases hp)).2.2.1 ⟨_, rfl⟩

/-! ### Claim C2: rejection of IP literals -/

/-- Claim C2: with the allow-IP-literals flag false, any input whose
normalization the code classifies as an IP literal (bare IPv4/IPv6 or
bracketed IPv6) is rejected regardless of the whitelist contents; in
particular the three example literals, even when the whitelist lists
them verbatim. -/
theorem C2_ip_literals :
    (∀ (v : Validator) (d : GoStr), v.allowIPLiterals = false →
      ipLiteralRejected (normalizeDomain d) = true → IsAllowed v d = false)
    ∧ (∀ wl : List GoStr,
        IsAllowed ⟨wl, false⟩ "127.0.0.1".toList = false
        ∧ IsAllowed ⟨wl, false⟩ "2001:db8::1".toList = false
        ∧ IsAllowed ⟨wl, false⟩ "[2001:db8::1]".toList = false) := by
  have main : ∀ (v : Validator) (d : GoStr), v.allowIPLiterals = false →
      ipLiteralRejected (normalizeDomain d) = true → IsAllowed v d = false := by
    intro v d hip hlit
    unfold IsAllowed
    simp [hip, hlit]
  exact ⟨main, fun wl =>
    ⟨main _ _ rfl (by decide), main _ _ rfl (by decide), main _ _ rfl (by decide)⟩⟩

/-- Witness for C2: the literal `"127.0.0.1"` is refused even when
whitelisted verbatim. -/
theorem C2_witness :
    IsAllowed ⟨["127.0.0.1".toList], false⟩ "127.0.0.1".toList = false :=
  C2_ip_literals.1 ⟨["127.0.0.1".toList], false⟩ "127.0.0.1".toList rfl (by decide)

/-! ### Claim C6: SPKI pin computation -/

/-- Claim C6: a pin is base64(SHA-256(SPKI DER)); it depends only on the
`RawSubjectPublicKeyInfo` field (and differs, at a concrete certificate,
from hashing the whole certificate DER); the batch function preserves
length and order. The final conjunct checks a concrete pin value
(base64 of the SHA-256 digest of the empty SPKI). -/
theorem C6_spki_hash :
    (∀ cert : Cert, GenerateSPKIHash cert =
        base64Encode (sha256 cert.rawSubjectPublicKeyInfo))
    ∧ (∀ c1 c2 : Cert, c1.rawSubjectPublicKeyInfo = c2.rawSubjectPublicKeyInfo →
        GenerateSPKIHash c1 = GenerateSPKIHash c2)
    ∧ (∀ certs : List Cert, (GenerateSPKIHashes certs).length = certs.length)
    ∧ (∀ (certs : List Cert) (i : Nat),
        (GenerateSPKIHashes certs)[i]? = certs[i]?.map GenerateSPKIHash)
    ∧ GenerateSPKIHash ⟨[48], [49]⟩ ≠
        base64Encode (sha256 (Cert.mk [48] [49]).raw)
    ∧ GenerateSPKIHash ⟨[48], []⟩ =
        "47DEQpj8HBSa+/TImW+5JCeuQeRkm5NMpJWZG3hSuFU=".toList := by
  refine ⟨fun cert => rfl, ?_, ?_, ?_, by decide, by decide⟩
  · intro c1 c2 h
    unfold GenerateSPKIHash
    rw [h]
  · intro certs
    rw [GenerateSPKIHashes_eq_map, List.length_map]
  · intro certs i
    rw [GenerateSPKIHashes_eq_map, List.getElem?_map]

/-- Witness for C6: two certificates with the same SPKI but different
whole-certificate DER get the same pin. -/
theorem C6_witness :
    GenerateSPKIHash ⟨[48], [50]⟩ = GenerateSPKIHash ⟨[49], [50]⟩ :=
  C6_spki_hash.2.1 ⟨[48], [50]⟩ ⟨[49], [50]⟩ rfl

/-! ### Claim C7: the expiry equation -/

/-- Claim C7, counterexample: with signature lifetime 500ms (a value
`SIGNATURE_LIFETIME=500ms` accepts) and the clock at 0.7s past a second
boundary, `exp` lands in the next second while `iat` and `ttl_seconds`
truncate down, so `exp ≠ iat + ttl_seconds`. -/
theorem C7_counterexample :
    (CreateJWS sigZero 0 "k1".toList "example.com".toList [] 500000000
        700000000 0).payload.exp ≠
      (CreateJWS sigZero 0 "k1".toList "example.com".toList [] 500000000
        700000000 0).payload.iat +
      (CreateJWS sigZero 0 "k1".toList "example.com".toList [] 500000000
        700000000 0).payload.ttl_seconds := by decide

/-- Claim C7 (amended): whenever the configured signature lifetime is a
whole number of seconds (as with the `1h` default), every issued
envelope satisfies `exp = iat + ttl_seconds`, for every clock value. -/
theorem C7_expiry_equation (sig : SigFun) (key : Nat) (keyID domain : GoStr)
    (pins : List GoStr) (ttlNs nowNs rand : Nat) (h : nsPerSec ∣ ttlNs) :
    (CreateJWS sig key keyID domain pins ttlNs nowNs rand).payload.exp =
      (CreateJWS sig key keyID domain pins ttlNs nowNs rand).payload.iat +
      (CreateJWS sig key keyID domain pins ttlNs nowNs rand).payload.ttl_seconds := by
  obtain ⟨k, rfl⟩ := h
  show (nowNs + nsPerSec * k) / nsPerSec =
    nowNs / nsPerSec + nsPerSec * k / nsPerSec
  rw [Nat.mul_div_cancel_left _ (by decide : 0 < nsPerSec),
    Nat.add_mul_div_left _ _ (by decide : 0 < nsPerSec)]

/-- Witness for C7 at the default one-hour lifetime. -/
theorem C7_witness :
    (CreateJWS sigZero 0 "k1".toList "example.com".toList [] 3600000000000
        123456789 0).payload.exp =
      (CreateJWS sigZero 0 "k1".toList "example.com".toList [] 3600000000000
        123456789 0).payload.iat +
      (CreateJWS sigZero 0 "k1".toList "example.com".toList [] 3600000000000
        123456789 0).payload.ttl_seconds :=
  C7_expiry_equation sigZero 0 "k1".toList "example.com".toList [] 3600000000000
    123456789 0 ⟨3600, rfl⟩

/-! ### Claim C9: what determines the envelope -/

/-- Claim C9, counterexample: two signing runs with identical domain,
pins, ttl, key, keyId and even identical signature randomness, but at
different clock instants, produce different envelope contents (the
payloads differ in `iat`/`exp`) — the wall clock sampled inside
`CreateJWS` influences the result. -/
theorem C9_counterexample :
    (CreateJWS sigZero 0 "k1".toList "example.com".toList [] 3600000000000
        0 0).payload ≠
      (CreateJWS sigZero 0 "k1".toList "example.com".toList [] 3600000000000
        1000000000 0).payload := by decide

/-- Claim C9 (amended): with the clock instant included among the
inputs, the envelope contents (header and payload) are fully determined
by domain, pins, ttl, keyId and the clock — independent even of the
signing key and of the signature randomness — and are given by explicit
formulas. -/
theorem C9_envelope_determinism (sig sig2 : SigFun) (key key2 : Nat)
    (keyID domain : GoStr) (pins : List GoStr) (ttlNs nowNs rand rand2 : Nat) :
    (CreateJWS sig key keyID domain pins ttlNs nowNs rand).payload =
        (CreateJWS sig2 key2 keyID domain pins ttlNs nowNs rand2).payload
    ∧ (CreateJWS sig key keyID domain pins ttlNs nowNs rand).header =
        (CreateJWS sig2 key2 keyID domain pins ttlNs nowNs rand2).header
    ∧ (CreateJWS sig key keyID domain pins ttlNs nowNs rand).payload =
        ⟨domain, pins, nowNs / nsPerSec, (nowNs + ttlNs) / nsPerSec,
          ttlNs / nsPerSec⟩
    ∧ (CreateJWS sig key keyID domain pins ttlNs nowNs rand).header =
        ⟨"ES256".toList, keyID⟩ :=
  ⟨rfl, rfl, rfl, rfl⟩

/-! ### Claim C10: non-GET requests -/

/-- Claim C10: a request whose method is not GET is answered with 405
and the JSON error body, the retriever state is untouched, and no
whitelist check, certificate retrieval or signing happens. -/
theorem C10_method_not_allowed (sig : SigFun) (key : Nat) (keyID : GoStr)
    (v : Validator) (cacheTTL sigLifetimeNs : Nat) (st : RetrieverState)
    (req : HRequest) (now : Nat) (dial : Option (List Cert)) (rand : Nat)
    (h : req.method ≠ "GET".toList) :
    handleGetPins sig key keyID v cacheTTL sigLifetimeNs st req now dial rand =
      ⟨405, .errorBody "Method not allowed".toList 405, st, false, false, false⟩ := by
  unfold handleGetPins
  rw [if_pos h]

/-- Witness for C10 at a concrete POST request. -/
theorem C10_witness :
    handleGetPins sigZero 0 "k1".toList ⟨[], false⟩ 0 0 initialRetrieverState
        ⟨"POST".toList, "example.com".toList, []⟩ 0 none 0 =
      ⟨405, .errorBody "Method not allowed".toList 405, initialRetrieverState,
        false, false, false⟩ :=
  C10_method_not_allowed sigZero 0 "k1".toList ⟨[], false⟩ 0 0
    initialRetrieverState ⟨"POST".toList, "example.com".toList, []⟩ 0 none 0
    (by decide)

/-! ### Claim C3: pin counts and order -/

/-- Claim C3: for a chain delivered without error (hence non-empty, see
C5), the pins issued are exactly the leaf pin when backup pins are off
(or the chain has a single certificate), and leaf then first
intermediate when backup pins are on and available; the handler's
response envelope carries exactly these pins. -/
theorem C3_pin_selection :
    (∀ (c : Cert) (rest : List Cert),
      GenerateSPKIHashes (selectCertsForPinning false (c :: rest)) =
        [GenerateSPKIHash c])
    ∧ (∀ c : Cert,
      GenerateSPKIHashes (selectCertsForPinning true [c]) = [GenerateSPKIHash c])
    ∧ (∀ (c c2 : Cert) (rest : List Cert),
      GenerateSPKIHashes (selectCertsForPinning true (c :: c2 :: rest)) =
        [GenerateSPKIHash c, GenerateSPKIHash c2])
    ∧ (∀ (sig : SigFun) (key : Nat) (keyID : GoStr) (v : Validator)
        (cacheTTL sigLifetimeNs : Nat) (st : RetrieverState) (req : HRequest)
        (now : Nat) (dial : Option (List Cert)) (rand : Nat)
        (env : JWSEnvelope) (certs : List Cert),
        (handleGetPins sig key keyID v cacheTTL sigLifetimeNs st req now dial
          rand).body = .jwsBody env →
        (GetCertificates cacheTTL st req.domainParam now dial).result = .ok certs →
        env.payload.pins = GenerateSPKIHashes
          (selectCertsForPinning (req.includeBackupParam == "true".toList) certs)) := by
  refine ⟨?_, ?_, ?_, ?_⟩
  · intro c rest
    simp [selectCertsForPinning, GenerateSPKIHashes_eq_map]
  · intro c
    simp [selectCertsForPinning, GenerateSPKIHashes_eq_map]
  · intro c c2 rest
    simp [selectCertsForPinning, GenerateSPKIHashes_eq_map]
  · intro sig key keyID v cacheTTL sigLifetimeNs st req now dial rand env certs
      hbody hok
    unfold handleGetPins at hbody
    split at hbody
    · simp at hbody
    split at hbody
    · simp at hbody
    split at hbody
    · simp at hbody
    split at hbody
    · simp at hbody
    split at hbody
    · simp at hbody
    next certs1 st1 fb heq =>
      rw [heq] at hok
      simp only at hok
      injection hok with hok
      subst hok
      injection hbody with henv
      rw [← henv]
      rfl

/-- Witness for C3 at a concrete two-certificate chain with backup pins
requested through the full handler. -/
theorem C3_witness :
    (CreateJWS sigZero 0 "k1".toList "example.com".toList
        (GenerateSPKIHashes (selectCertsForPinning true
          [⟨[48], [49]⟩, ⟨[50], [51]⟩])) 0 0 0).payload.pins =
      GenerateSPKIHashes (selectCertsForPinning true
        [⟨[48], [49]⟩, ⟨[50], [51]⟩]) :=
  C3_pin_selection.2.2.2 sigZero 0 "k1".toList ⟨["example.com".toList], false⟩
    0 0 initialRetrieverState ⟨"GET".toList, "example.com".toList, "true".toList⟩
    0 (some [⟨[48], [49]⟩, ⟨[50], [51]⟩]) 0 _ _ rfl rfl

/-! ### Claim C8: the cache keys -/

/-- Claim C8, counterexample: a whitelisted request for `"EXAMPLE.COM"`
(matched case-insensitively against the whitelist entry `"example.com"`)
is cached under the raw key `"EXAMPLE.COM"`, which is not the
lowercasing of the requested domain. -/
theorem C8_counterexample :
    (handleGetPins sigZero 0 "k1".toList ⟨["example.com".toList], false⟩ 100
        3600000000000 initialRetrieverState
        ⟨"GET".toList, "EXAMPLE.COM".toList, []⟩ 0
        (some [⟨[48], [49]⟩]) 0).state.cache =
      [("EXAMPLE.COM".toList, ⟨[⟨[48], [49]⟩], 100⟩)]
    ∧ "EXAMPLE.COM".toList ≠ goToLower "EXAMPLE.COM".toList := by
  exact ⟨by decide, by decide⟩

/-- Keys present after a retriever call: the old keys, or the requested
domain exactly as passed. -/
theorem GetCertificates_keys (ttl : Nat) (st : RetrieverState) (d : GoStr)
    (now : Nat) (dial : Option (List Cert)) (k : GoStr)
    (hk : k ∈ ((GetCertificates ttl st d now dial).state).cache.map Prod.fst) :
    k ∈ st.cache.map Prod.fst ∨ k = d := by
  rcases hh : cacheHit ttl st d now with _ | cs
  · rcases hf : fetchCertificates d dial with e | cs0
    · simp only [GetCertificates, hh, hf] at hk
      exact Or.inl hk
    · by_cases httl : 0 < ttl
      · simp only [GetCertificates, hh, hf, if_pos httl, mapInsert,
          List.map_cons] at hk
        rcases List.mem_cons.mp hk with rfl | hmem
        · exact Or.inr rfl
        · obtain ⟨p, hp, hfst⟩ := List.mem_map.mp hmem
          exact Or.inl (List.mem_map.mpr ⟨p, (List.mem_filter.mp hp).1, hfst⟩)
      · simp only [GetCertificates, hh, hf, if_neg httl] at hk
        exact Or.inl hk
  · simp only [GetCertificates, hh] at hk
    exact Or.inl hk

/-- Keys present after a handler call: the old keys, or the raw request
domain. -/
theorem handleGetPins_keys (sig : SigFun) (key : Nat) (keyID : GoStr)
    (v : Validator) (cacheTTL sigLifetimeNs : Nat) (st : RetrieverState)
    (req : HRequest) (now : Nat) (dial : Option (List Cert)) (rand : Nat)
    (k : GoStr)
    (hk : k ∈ ((handleGetPins sig key keyID v cacheTTL sigLifetimeNs st req
      now dial rand).state).cache.map Prod.fst) :
    k ∈ st.cache.map Prod.fst ∨ k = req.domainParam := by
  unfold handleGetPins at hk
  split at hk
  · exact Or.inl hk
  split at hk
  · exact Or.inl hk
  split at hk
  · exact Or.inl hk
  split at hk
  · exact Or.inl hk
  split at hk
  next e st1 fb heq =>
    have hst : st1 = (GetCertificates cacheTTL st req.domainParam now dial).state := by
      rw [heq]
    exact GetCertificates_keys cacheTTL st req.domainParam now dial k (hst ▸ hk)
  next certs1 st1 fb heq =>
    have hst : st1 = (GetCertificates cacheTTL st req.domainParam now dial).state := by
      rw [heq]
    exact GetCertificates_keys cacheTTL st req.domainParam now dial k (hst ▸ hk)

/-- Keys after a whole run are domains of some processed request. -/
theorem runHandler_keys (sig : SigFun) (key : Nat) (keyID : GoStr)
    (v : Validator) (cacheTTL sigLifetimeNs : Nat) (calls : List HandlerCall)
    (st : RetrieverState) (k : GoStr)
    (hk : k ∈ (runHandler sig key keyID v cacheTTL sigLifetimeNs calls st).cache.map
      Prod.fst) :
    k ∈ st.cache.map Prod.fst ∨ ∃ c ∈ calls, k = c.req.domainParam := by
  induction calls generalizing st with
  | nil => exact Or.inl hk
  | cons c cs ih =>
    rcases ih _ hk with h | ⟨c', hc', hdom⟩
    · rcases handleGetPins_keys sig key keyID v cacheTTL sigLifetimeNs st
        c.req c.now c.dial c.rand k h with h' | hdom
      · exact Or.inl h'
      · exact Or.inr ⟨c, by simp, hdom⟩
    · exact Or.inr ⟨c', by simp [hc'], hdom⟩

/-- Claim C8 (amended): starting from the empty cache, after any
sequence of handler calls every cache key is the exact domain string of
some request, as it appeared in the request — the handler passes the
raw, non-lowercased domain to the retriever, so keys are never
whitelist patterns but also not lowercased. -/
theorem C8_cache_keys (sig : SigFun) (key : Nat) (keyID : GoStr)
    (v : Validator) (cacheTTL sigLifetimeNs : Nat) (calls : List HandlerCall)
    (k : GoStr)
    (hk : k ∈ (runHandler sig key keyID v cacheTTL sigLifetimeNs calls
      initialRetrieverState).cache.map Prod.fst) :
    ∃ c ∈ calls, k = c.req.domainParam := by
  rcases runHandler_keys sig key keyID v cacheTTL sigLifetimeNs calls
    initialRetrieverState k hk with h | h
  · simp [initialRetrieverState] at h
  · exact h

/-- Witness for C8 at a concrete one-request run. -/
theorem C8_witness :
    ∃ c ∈ [HandlerCall.mk ⟨"GET".toList, "EXAMPLE.COM".toList, []⟩ 0
        (some [⟨[48], [49]⟩]) 0],
      "EXAMPLE.COM".toList = c.req.domainParam :=
  C8_cache_keys sigZero 0 "k1".toList ⟨["example.com".toList], false⟩ 100
    3600000000000
    [HandlerCall.mk ⟨"GET".toList, "EXAMPLE.COM".toList, []⟩ 0
      (some [⟨[48], [49]⟩]) 0]
    "EXAMPLE.COM".toList (by decide)

end Dynapins
